import Mathlib

/-!
Verification development for the winreg registry-access library.

The library wraps the Windows registry API. Its core pieces, embedded
below, are: the wide-string helpers `to_utf16` and `v16_to_v8`
(src/lib.rs), the value-reading path `get_raw_value`, the structural
operations `create_subkey_with_flags` and `delete_subkey`, the handle
lifecycle `close_` and the `Drop` implementation, and the two iterators
`EnumKeys` and `EnumValues` (all in src/lib.rs).  The store boundary
(advapi32 calls) is abstracted as reply-valued functions; the documented
semantics of RegQueryValueExW for a stored value is modelled by
`queryValue`.  The typed value codec lives in the crate module
`types.rs`, which is not part of the sources at hand; it is modelled
from the specification's codec rules (section 4.1) and marked as such.
-/

namespace Winreg

/-- Error code winerror::ERROR_INVALID_BLOCK (9), used by EnumKeys for a
name that is not valid UTF-16. -/
def ERROR_INVALID_BLOCK : Nat := 9

/-- Error code winerror::ERROR_BAD_FILE_TYPE (222), used for a value type
tag above REG_QWORD. -/
def ERROR_BAD_FILE_TYPE : Nat := 222

/-- Error code winerror::ERROR_MORE_DATA (234): the store's
"buffer too small" signal. -/
def ERROR_MORE_DATA : Nat := 234

/-- Error code winerror::ERROR_NO_MORE_ITEMS (259): the store's
"no more items" enumeration signal. -/
def ERROR_NO_MORE_ITEMS : Nat := 259

/-- The numeric value of the predefined root handle HKEY_CLASSES_ROOT
(0x80000000); all ten predefined roots are at or above it. -/
def HKEY_CLASSES_ROOT : Nat := 0x80000000

/-- The ten predefined (well-known) root handle values re-exported by
enums.rs from the Windows API. -/
def predefinedRoots : List Nat :=
  [0x80000000, 0x80000001, 0x80000002, 0x80000003, 0x80000004,
   0x80000005, 0x80000006, 0x80000007, 0x80000050, 0x80000060]

/-- RegError from src/lib.rs: a wrapped native error code (DWORD). -/
structure RegError where
  err : Nat
deriving DecidableEq, Repr

/-- RegResult from src/lib.rs: std::result::Result with RegError. -/
inductive RegResult (α : Type) where
  | ok (val : α)
  | err (e : RegError)
deriving DecidableEq, Repr

/-- RegType from src/enums.rs: the twelve registry value type tags, with
discriminants 0 (REG_NONE) through 11 (REG_QWORD). -/
inductive RegType where
  | REG_NONE
  | REG_SZ
  | REG_EXPAND_SZ
  | REG_BINARY
  | REG_DWORD
  | REG_DWORD_BIG_ENDIAN
  | REG_LINK
  | REG_MULTI_SZ
  | REG_RESOURCE_LIST
  | REG_FULL_RESOURCE_DESCRIPTOR
  | REG_RESOURCE_REQUIREMENTS_LIST
  | REG_QWORD
deriving DecidableEq, Repr

/-- The transmute from a checked tag value (at most 11 = REG_QWORD) to
RegType performed in get_raw_value and EnumValues::next; values above 11
never reach the transmute because of the preceding check. -/
def RegType.fromTag : Nat → RegType
  | 0 => .REG_NONE
  | 1 => .REG_SZ
  | 2 => .REG_EXPAND_SZ
  | 3 => .REG_BINARY
  | 4 => .REG_DWORD
  | 5 => .REG_DWORD_BIG_ENDIAN
  | 6 => .REG_LINK
  | 7 => .REG_MULTI_SZ
  | 8 => .REG_RESOURCE_LIST
  | 9 => .REG_FULL_RESOURCE_DESCRIPTOR
  | 10 => .REG_RESOURCE_REQUIREMENTS_LIST
  | _ => .REG_QWORD

/-- Raw registry value from src/lib.rs: a byte blob plus a type tag. -/
structure RegValue where
  bytes : List Nat
  vtype : RegType
deriving DecidableEq, Repr

/-- Handle of an opened registry key from src/lib.rs: holds the native
HKEY value. -/
structure RegKey where
  hkey : Nat
deriving DecidableEq, Repr

/-- UTF-16 encoding of one Unicode scalar value, as performed by the
Rust standard library's wide-string conversion used by to_utf16: a
scalar below 0x10000 is one code unit, anything else a surrogate pair. -/
def encodeCharUtf16 (c : Char) : List Nat :=
  if c.toNat < 0x10000 then [c.toNat]
  else [0xD800 + (c.toNat - 0x10000) / 0x400, 0xDC00 + (c.toNat - 0x10000) % 0x400]

/-- UTF-16 encoding of a string (modelled as its list of Unicode scalar
values), as performed by OsStrExt::encode_wide for string input. -/
def encodeUtf16 (s : List Char) : List Nat :=
  (s.map encodeCharUtf16).flatten

/-- UTF-16 decoding, as performed by String::from_utf16: pairs up
surrogates and fails (none) on any unpaired surrogate. -/
def decodeUtf16 : List Nat → Option (List Char)
  | [] => some []
  | u :: rest =>
    if u < 0xD800 then
      (decodeUtf16 rest).map (fun cs => Char.ofNat u :: cs)
    else if u < 0xDC00 then
      match rest with
      | [] => none
      | v :: rest2 =>
        if 0xDC00 ≤ v then
          if v < 0xE000 then
            (decodeUtf16 rest2).map
              (fun cs => Char.ofNat (0x10000 + (u - 0xD800) * 0x400 + (v - 0xDC00)) :: cs)
          else none
        else none
    else if u < 0xE000 then none
    else if u < 0x10000 then
      (decodeUtf16 rest).map (fun cs => Char.ofNat u :: cs)
    else none

/-- to_utf16 from src/lib.rs: the wide encoding of the input followed by
exactly one appended NUL code unit (encode_wide chained with Some(0)). -/
def to_utf16 (s : List Char) : List Nat :=
  encodeUtf16 s ++ [0]

/-- v16_to_v8 from src/lib.rs: reinterpret a u16 buffer as bytes in
little-endian order. -/
def v16_to_v8 : List Nat → List Nat
  | [] => []
  | u :: rest => u % 256 :: u / 256 % 256 :: v16_to_v8 rest

/-- How a NUL-terminated wide-string consumer (the store boundary) reads
a buffer: the code units strictly before the first NUL. -/
def readWideCStr : List Nat → List Nat
  | [] => []
  | u :: rest => if u = 0 then [] else u :: readWideCStr rest

/-- Reply of the store's RegQueryValueExW call: on status 0 the written
type tag and data bytes, otherwise the nonzero status code. -/
inductive QueryReply where
  | ok (vtype : Nat) (data : List Nat)
  | err (code : Nat)
deriving DecidableEq, Repr

/-- A value as held by the store: a native type tag and data bytes. -/
structure StoredValue where
  vtype : Nat
  data : List Nat
deriving DecidableEq, Repr

/-- The documented behaviour of RegQueryValueExW for an existing stored
value: if the data fits the supplied buffer it is written and status 0
returned, otherwise the call fails with ERROR_MORE_DATA (buffer too
small). -/
def queryValue (v : StoredValue) (bufLen : Nat) : QueryReply :=
  if v.data.length ≤ bufLen then .ok v.vtype v.data else .err ERROR_MORE_DATA

/-- RegKey::get_raw_value from src/lib.rs, abstracted over the store
call for the already-encoded value name: one query with a 2048-byte
buffer; on status 0 the buffer is cut to the reported length and the
tag checked to be at most REG_QWORD (11) before the transmute, any
larger tag giving ERROR_BAD_FILE_TYPE; any nonzero status is returned
as the error. -/
def get_raw_value (query : Nat → QueryReply) : RegResult RegValue :=
  match query 2048 with
  | .ok vtype data =>
    if 11 < vtype then .err ⟨ERROR_BAD_FILE_TYPE⟩
    else .ok ⟨data, RegType.fromTag vtype⟩
  | .err code => .err ⟨code⟩

/-- Reply of the store's RegCreateKeyExW call: on status 0 the new
handle and the disposition written through the out-parameter, otherwise
the nonzero status code. -/
inductive CreateReply where
  | ok (hkey : Nat) (disp : Nat)
  | err (code : Nat)
deriving DecidableEq, Repr

/-- RegKey::create_subkey_with_flags from src/lib.rs, abstracted over
the store call: on status 0 the new handle is wrapped and returned; the
disposition out-parameter, though received from the store, is dropped
(the source marks it TODO); a nonzero status is returned as the error. -/
def create_subkey_with_flags (create : CreateReply) : RegResult RegKey :=
  match create with
  | .ok h _disp => .ok ⟨h⟩
  | .err code => .err ⟨code⟩

/-- RegKey::delete_subkey from src/lib.rs, abstracted over the store's
RegDeleteKeyW call (a function from the encoded wide name to a status):
the path is encoded by to_utf16 and passed through unchecked; status 0
is success, anything else the error. -/
def delete_subkey (deleteKey : List Nat → Nat) (path : List Char) : RegResult Unit :=
  match deleteKey (to_utf16 path) with
  | 0 => .ok ()
  | code => .err ⟨code⟩

/-- RegKey::close_ from src/lib.rs, abstracted over the store's
RegCloseKey call: a handle at or above HKEY_CLASSES_ROOT (a predefined
key) is not closed and the call succeeds immediately; otherwise the
store is called and a nonzero status is returned as the error. -/
def close_ (closeKey : Nat → Nat) (k : RegKey) : RegResult Unit :=
  if HKEY_CLASSES_ROOT ≤ k.hkey then .ok ()
  else
    match closeKey k.hkey with
    | 0 => .ok ()
    | code => .err ⟨code⟩

/-- Outcome of running a destructor: a normal return or a panic. -/
inductive DropOutcome where
  | unit
  | panics
deriving DecidableEq, Repr

/-- The Drop implementation for RegKey from src/lib.rs: it runs
close_ and unwraps the result, so a close error becomes a panic. -/
def drop (closeKey : Nat → Nat) (k : RegKey) : DropOutcome :=
  match close_ closeKey k with
  | .ok _ => .unit
  | .err _ => .panics

/-- Reply of the store's RegEnumKeyExW call at an index: on status 0 the
name's code units, otherwise the nonzero status code (ERROR_NO_MORE_ITEMS
past the last index, ERROR_MORE_DATA when the name does not fit, and so
on). -/
inductive EnumKeyReply where
  | ok (name : List Nat)
  | err (code : Nat)
deriving DecidableEq, Repr

/-- State of the subkey-name iterator EnumKeys from src/lib.rs. -/
structure EnumKeys where
  index : Nat
deriving DecidableEq, Repr

/-- EnumKeys::next from src/lib.rs, abstracted over the store call: on
status 0 the index advances and the name is decoded from UTF-16, a
malformed name becoming the step error ERROR_INVALID_BLOCK;
ERROR_NO_MORE_ITEMS ends the sequence (none); any other status is
yielded as a step error with the index left unchanged. -/
def enumKeysNext (store : Nat → EnumKeyReply) (it : EnumKeys) :
    Option (RegResult (List Char)) × EnumKeys :=
  match store it.index with
  | .ok name =>
    (some (match decodeUtf16 name with
           | some s => .ok s
           | none => .err ⟨ERROR_INVALID_BLOCK⟩),
     ⟨it.index + 1⟩)
  | .err code =>
    if code = ERROR_NO_MORE_ITEMS then (none, it)
    else (some (.err ⟨code⟩), it)

/-- Reply of the store's RegEnumValueW call at an index: on status 0 the
value name's code units, the type tag and the data bytes, otherwise the
nonzero status code. -/
inductive EnumValueReply where
  | ok (name : List Nat) (vtype : Nat) (data : List Nat)
  | err (code : Nat)
deriving DecidableEq, Repr

/-- State of the value iterator EnumValues from src/lib.rs. -/
structure EnumValues where
  index : Nat
deriving DecidableEq, Repr

/-- One step of an iterator that, besides yielding an optional result,
may panic (Rust unwind) instead of returning. -/
inductive StepOutcome (α : Type) where
  | yields (r : Option (RegResult α))
  | panics
deriving DecidableEq, Repr

/-- EnumValues::next from src/lib.rs, abstracted over the store call: on
status 0 the index advances, the name is decoded with
String::from_utf16(..).unwrap() — a panic on malformed UTF-16 — and the
tag is checked to be at most REG_QWORD (11), a larger tag yielding the
step error ERROR_BAD_FILE_TYPE; ERROR_NO_MORE_ITEMS ends the sequence;
any other status is yielded as a step error with the index unchanged. -/
def enumValuesNext (store : Nat → EnumValueReply) (it : EnumValues) :
    StepOutcome (List Char × RegValue) × EnumValues :=
  match store it.index with
  | .ok name vtype data =>
    match decodeUtf16 name with
    | none => (.panics, ⟨it.index + 1⟩)
    | some nm =>
      if 11 < vtype then
        (.yields (some (.err ⟨ERROR_BAD_FILE_TYPE⟩)), ⟨it.index + 1⟩)
      else
        (.yields (some (.ok (nm, ⟨data, RegType.fromTag vtype⟩))), ⟨it.index + 1⟩)
  | .err code =>
    if code = ERROR_NO_MORE_ITEMS then (.yields none, it)
    else (.yields (some (.err ⟨code⟩)), it)

/-- Modelled from the spec: the decode error kinds of the value codec of
the crate module types.rs, which is missing from the sources (section 7:
bad-type for an unsupported or mismatched tag, invalid-encoding for
malformed UTF-16; badLength covers the integer blob-length checks of
section 4.1, whose exact kind the spec leaves open). -/
inductive CodecError where
  | badType (tag : RegType)
  | invalidEncoding
  | badLength
deriving DecidableEq, Repr

/-- Modelled from the spec: the missing codec module's byte-to-code-unit
view (the inverse direction of v16_to_v8): consecutive little-endian
byte pairs, a trailing odd byte being dropped. -/
def v8_to_v16 : List Nat → List Nat
  | b0 :: b1 :: rest => (b0 + 256 * b1) :: v8_to_v16 rest
  | _ => []

/-- Modelled from the spec: string encode of the missing types.rs
(section 4.1): UTF-16-LE code units plus one NUL code unit, stored as
bytes under the tag REG_SZ. -/
def encodeString (s : List Char) : RegValue :=
  ⟨v16_to_v8 (encodeUtf16 s ++ [0]), .REG_SZ⟩

/-- Modelled from the spec: stripping of exactly one trailing NUL code
unit, if present, before string decoding (section 4.1). -/
def stripTrailingNul (units : List Nat) : List Nat :=
  if units.getLast? = some 0 then units.dropLast else units

/-- Modelled from the spec: string decode of the missing types.rs
(section 4.1): accepted for the tags REG_SZ, REG_EXPAND_SZ and REG_LINK;
one trailing NUL is stripped; malformed UTF-16 is the invalid-encoding
error; any other tag is the bad-type error. -/
def decodeString (v : RegValue) : Except CodecError (List Char) :=
  match v.vtype with
  | .REG_SZ | .REG_EXPAND_SZ | .REG_LINK =>
    match decodeUtf16 (stripTrailingNul (v8_to_v16 v.bytes)) with
    | some s => .ok s
    | none => .error .invalidEncoding
  | t => .error (.badType t)

/-- Little-endian byte serialization of a natural number into the given
number of bytes. -/
def leBytes (width : Nat) (n : Nat) : List Nat :=
  (List.range width).map (fun i => n / 256 ^ i % 256)

/-- Little-endian byte deserialization of a natural number. -/
def fromLeBytes (bs : List Nat) : Nat :=
  bs.foldr (fun b acc => b + 256 * acc) 0

/-- Modelled from the spec: 32-bit integer encode of the missing
types.rs (section 4.1): exactly 4 little-endian bytes under REG_DWORD. -/
def encodeU32 (n : Nat) : RegValue :=
  ⟨leBytes 4 n, .REG_DWORD⟩

/-- Modelled from the spec: 32-bit integer decode of the missing
types.rs (section 4.1): requires the tag REG_DWORD and exactly 4 bytes. -/
def decodeU32 (v : RegValue) : Except CodecError Nat :=
  match v.vtype with
  | .REG_DWORD =>
    if v.bytes.length = 4 then .ok (fromLeBytes v.bytes) else .error .badLength
  | t => .error (.badType t)

/-- Modelled from the spec: 64-bit integer encode of the missing
types.rs (section 4.1): exactly 8 little-endian bytes under REG_QWORD. -/
def encodeU64 (n : Nat) : RegValue :=
  ⟨leBytes 8 n, .REG_QWORD⟩

/-- Modelled from the spec: 64-bit integer decode of the missing
types.rs (section 4.1): requires the tag REG_QWORD and exactly 8 bytes. -/
def decodeU64 (v : RegValue) : Except CodecError Nat :=
  match v.vtype with
  | .REG_QWORD =>
    if v.bytes.length = 8 then .ok (fromLeBytes v.bytes) else .error .badLength
  | t => .error (.badType t)

/-- Modelled from the spec: string-sequence encode of the missing
types.rs (section 4.1): each element as NUL-terminated UTF-16-LE,
concatenated in order, followed by one additional terminating NUL, under
the tag REG_MULTI_SZ (an empty sequence encodes to the single NUL). -/
def encodeMultiString (l : List (List Char)) : RegValue :=
  ⟨v16_to_v8 (((l.map (fun s => encodeUtf16 s ++ [0])).flatten) ++ [0]), .REG_MULTI_SZ⟩

/-- Modelled from the spec: splitting of a code-unit stream on NUL
boundaries (section 4.1), each NUL terminating a segment and the end of
the buffer acting as an implicit terminator for a nonempty last segment
(tolerance for a missing final terminator). -/
def splitSegsAux : List Nat → List Nat → List (List Nat)
  | [], cur => if cur = [] then [] else [cur.reverse]
  | u :: rest, cur =>
    if u = 0 then cur.reverse :: splitSegsAux rest []
    else splitSegsAux rest (u :: cur)

/-- Modelled from the spec: UTF-16 decoding of every segment of a split
string sequence; any malformed segment fails the whole decode. -/
def decodeSegs : List (List Nat) → Option (List (List Char))
  | [] => some []
  | seg :: rest =>
    match decodeUtf16 seg, decodeSegs rest with
    | some s, some l => some (s :: l)
    | _, _ => none

/-- Modelled from the spec: string-sequence decode of the missing
types.rs (section 4.1): requires the tag REG_MULTI_SZ; the code-unit
stream is split on NUL boundaries, the final empty segment produced by
the terminator is dropped, order is preserved, and each segment is
UTF-16 decoded. -/
def decodeMultiString (v : RegValue) : Except CodecError (List (List Char)) :=
  match v.vtype with
  | .REG_MULTI_SZ =>
    let segs := splitSegsAux (v8_to_v16 v.bytes) []
    let trimmed := if segs.getLast? = some [] then segs.dropLast else segs
    match decodeSegs trimmed with
    | some l => .ok l
    | none => .error .invalidEncoding
  | t => .error (.badType t)

/-- Modelled from the spec: raw byte-sequence encode of the missing
types.rs (section 4.1): the bytes verbatim under the tag REG_BINARY. -/
def encodeBytes (b : List Nat) : RegValue :=
  ⟨b, .REG_BINARY⟩

/-- Modelled from the spec: raw byte-sequence decode of the missing
types.rs (section 4.1): requires the tag REG_BINARY and yields the bytes
verbatim. -/
def decodeBytes (v : RegValue) : Except CodecError (List Nat) :=
  match v.vtype with
  | .REG_BINARY => .ok v.bytes
  | t => .error (.badType t)

/-- The validity invariant carried by a Char, in terms of its scalar
value: below the surrogate range or strictly between it and 0x110000. -/
theorem char_toNat_valid (c : Char) :
    c.toNat < 0xD800 ∨ (0xDFFF < c.toNat ∧ c.toNat < 0x110000) := by
  have h := c.valid
  simp only [UInt32.isValidChar, Nat.isValidChar] at h
  simpa [Char.toNat] using h

/-- Decoding one encoded scalar at the head of a stream peels off exactly
that character. -/
theorem decodeUtf16_encodeChar (c : Char) (l : List Nat) :
    decodeUtf16 (encodeCharUtf16 c ++ l) = (decodeUtf16 l).map (fun cs => c :: cs) := by
  rcases char_toNat_valid c with h | ⟨h1, h2⟩
  · rw [encodeCharUtf16, if_pos (show c.toNat < 0x10000 by omega)]
    rw [List.cons_append, List.nil_append, decodeUtf16.eq_def]
    simp only []
    rw [if_pos h, Char.ofNat_toNat]
  · by_cases hb : c.toNat < 0x10000
    · rw [encodeCharUtf16, if_pos hb]
      rw [List.cons_append, List.nil_append, decodeUtf16.eq_def]
      simp only []
      rw [if_neg (by omega), if_neg (by omega), if_neg (by omega), if_pos hb,
        Char.ofNat_toNat]
    · rw [encodeCharUtf16, if_neg hb]
      rw [List.cons_append, List.cons_append, List.nil_append, decodeUtf16.eq_def]
      simp only []
      rw [if_neg (by omega), if_pos (by omega)]
      rw [if_pos (by omega), if_pos (by omega)]
      have ht : 0x10000 + (0xD800 + (c.toNat - 0x10000) / 0x400 - 0xD800) * 0x400 +
          (0xDC00 + (c.toNat - 0x10000) % 0x400 - 0xDC00) = c.toNat := by omega
      rw [ht, Char.ofNat_toNat]

/-- Decoding an encoded string followed by any tail prepends the string
to whatever the tail decodes to. -/
theorem decodeUtf16_encode_append (s : List Char) (l : List Nat) :
    decodeUtf16 (encodeUtf16 s ++ l) = (decodeUtf16 l).map (fun cs => s ++ cs) := by
  induction s with
  | nil =>
    cases hd : decodeUtf16 l <;> simp [encodeUtf16, hd]
  | cons c s ih =>
    have : encodeUtf16 (c :: s) ++ l = encodeCharUtf16 c ++ (encodeUtf16 s ++ l) := by
      simp [encodeUtf16]
    rw [this, decodeUtf16_encodeChar, ih]
    cases decodeUtf16 l <;> simp

/-- UTF-16 round trip: decoding an encoded string recovers it. -/
theorem decodeUtf16_encodeUtf16 (s : List Char) :
    decodeUtf16 (encodeUtf16 s) = some s := by
  have h := decodeUtf16_encode_append s []
  simpa [decodeUtf16] using h

/-- Every code unit produced for one scalar fits in sixteen bits. -/
theorem mem_encodeCharUtf16_lt (c : Char) : ∀ u ∈ encodeCharUtf16 c, u < 0x10000 := by
  intro u hu
  rcases char_toNat_valid c with h | ⟨h1, h2⟩ <;> rw [encodeCharUtf16] at hu
  · rw [if_pos (by omega)] at hu
    simp at hu
    omega
  · by_cases hb : c.toNat < 0x10000
    · rw [if_pos hb] at hu
      simp at hu
      omega
    · rw [if_neg hb] at hu
      simp at hu
      rcases hu with hu | hu <;> omega

/-- Every code unit produced for a scalar other than NUL is nonzero. -/
theorem mem_encodeCharUtf16_ne_zero (c : Char) (h0 : c.toNat ≠ 0) :
    ∀ u ∈ encodeCharUtf16 c, u ≠ 0 := by
  intro u hu
  rw [encodeCharUtf16] at hu
  by_cases hb : c.toNat < 0x10000
  · rw [if_pos hb] at hu
    simp at hu
    omega
  · rw [if_neg hb] at hu
    simp at hu
    rcases hu with hu | hu <;> omega

/-- Every code unit of an encoded string fits in sixteen bits. -/
theorem mem_encodeUtf16_lt (s : List Char) : ∀ u ∈ encodeUtf16 s, u < 0x10000 := by
  intro u hu
  rw [encodeUtf16] at hu
  rw [List.mem_flatten] at hu
  rcases hu with ⟨l, hl, hu⟩
  rw [List.mem_map] at hl
  rcases hl with ⟨c, _, rfl⟩
  exact mem_encodeCharUtf16_lt c u hu

/-- Every code unit of an encoded NUL-free string is nonzero. -/
theorem mem_encodeUtf16_ne_zero (s : List Char) (h : ∀ c ∈ s, c.toNat ≠ 0) :
    ∀ u ∈ encodeUtf16 s, u ≠ 0 := by
  intro u hu
  rw [encodeUtf16] at hu
  rw [List.mem_flatten] at hu
  rcases hu with ⟨l, hl, hu⟩
  rw [List.mem_map] at hl
  rcases hl with ⟨c, hc, rfl⟩
  exact mem_encodeCharUtf16_ne_zero c (h c hc) u hu

/-- Reinterpreting a sixteen-bit code-unit buffer as bytes and back is
the identity. -/
theorem v8_to_v16_v16_to_v8 (us : List Nat) (h : ∀ u ∈ us, u < 0x10000) :
    v8_to_v16 (v16_to_v8 us) = us := by
  induction us with
  | nil => rfl
  | cons u rest ih =>
    rw [v16_to_v8, v8_to_v16]
    have hu : u < 0x10000 := h u (by simp)
    have he : u % 256 + 256 * (u / 256 % 256) = u := by omega
    rw [he, ih (fun x hx => h x (by simp [hx]))]

/-- A NUL-terminated wide-string consumer reading a buffer that starts
with a NUL-free run followed by a NUL sees exactly that run. -/
theorem readWideCStr_append (l rest : List Nat) (h : ∀ u ∈ l, u ≠ 0) :
    readWideCStr (l ++ 0 :: rest) = l := by
  induction l with
  | nil => simp [readWideCStr]
  | cons u t ih =>
    rw [List.cons_append, readWideCStr, if_neg (h u (by simp))]
    rw [ih (fun x hx => h x (by simp [hx]))]

/-- Splitting a stream that starts with a NUL-free segment followed by a
NUL terminator closes the pending segment there. -/
theorem splitSegsAux_append (s rest cur : List Nat) (hs : ∀ u ∈ s, u ≠ 0) :
    splitSegsAux (s ++ 0 :: rest) cur = (cur.reverse ++ s) :: splitSegsAux rest [] := by
  induction s generalizing cur with
  | nil => simp [splitSegsAux]
  | cons u t ih =>
    rw [List.cons_append, splitSegsAux, if_neg (hs u (by simp))]
    rw [ih (u :: cur) (fun x hx => hs x (by simp [hx]))]
    simp

/-- Splitting the encoded form of a NUL-free string sequence yields the
per-element encodings followed by the final empty segment produced by
the terminating NUL. -/
theorem splitSegsAux_encode (l : List (List Char)) (h : ∀ e ∈ l, ∀ c ∈ e, c.toNat ≠ 0) :
    splitSegsAux ((l.map (fun s => encodeUtf16 s ++ [0])).flatten ++ [0]) [] =
      l.map encodeUtf16 ++ [[]] := by
  induction l with
  | nil => simp [splitSegsAux]
  | cons e t ih =>
    have ha : ((e :: t).map (fun s => encodeUtf16 s ++ [0])).flatten ++ [0]
        = encodeUtf16 e ++ (0 :: ((t.map (fun s => encodeUtf16 s ++ [0])).flatten ++ [0])) := by
      simp
    rw [ha, splitSegsAux_append _ _ _ (mem_encodeUtf16_ne_zero e (h e (by simp)))]
    rw [ih (fun e' he' => h e' (by simp [he']))]
    simp

/-- Decoding per-element encodings segment by segment recovers the
original sequence. -/
theorem decodeSegs_map_encode (l : List (List Char)) :
    decodeSegs (l.map encodeUtf16) = some l := by
  induction l with
  | nil => rfl
  | cons e t ih => rw [List.map_cons, decodeSegs, decodeUtf16_encodeUtf16, ih]

/-- Codec round trip for strings: decoding an encoded string of any
content (non-BMP scalars included) recovers it. -/
theorem decodeString_encodeString (s : List Char) :
    decodeString (encodeString s) = .ok s := by
  have hb : ∀ u ∈ encodeUtf16 s ++ [0], u < 0x10000 := by
    intro u hu
    rcases List.mem_append.1 hu with h | h
    · exact mem_encodeUtf16_lt s u h
    · simp at h
      omega
  simp only [encodeString, decodeString]
  rw [v8_to_v16_v16_to_v8 _ hb, stripTrailingNul]
  rw [if_pos (by simp)]
  simp [decodeUtf16_encodeUtf16]

/-- Codec round trip for 32-bit integers. -/
theorem decodeU32_encodeU32 (n : Nat) (h : n < 2 ^ 32) :
    decodeU32 (encodeU32 n) = .ok n := by
  simp only [encodeU32, decodeU32]
  rw [if_pos (by simp [leBytes])]
  simp only [leBytes, fromLeBytes, List.range_succ]
  simp
  omega

/-- Codec round trip for 64-bit integers. -/
theorem decodeU64_encodeU64 (n : Nat) (h : n < 2 ^ 64) :
    decodeU64 (encodeU64 n) = .ok n := by
  simp only [encodeU64, decodeU64]
  rw [if_pos (by simp [leBytes])]
  simp only [leBytes, fromLeBytes, List.range_succ]
  simp
  omega

/-- Codec round trip for string sequences whose elements contain no NUL
character: decoding an encoded sequence recovers it. -/
theorem decodeMultiString_encodeMultiString (l : List (List Char))
    (h : ∀ e ∈ l, ∀ c ∈ e, c.toNat ≠ 0) :
    decodeMultiString (encodeMultiString l) = .ok l := by
  have hb : ∀ u ∈ (l.map (fun s => encodeUtf16 s ++ [0])).flatten ++ [0], u < 0x10000 := by
    intro u hu
    rcases List.mem_append.1 hu with hm | hm
    · rw [List.mem_flatten] at hm
      rcases hm with ⟨e, he, hu⟩
      rw [List.mem_map] at he
      rcases he with ⟨s, _, rfl⟩
      rcases List.mem_append.1 hu with hx | hx
      · exact mem_encodeUtf16_lt s u hx
      · simp at hx
        omega
    · simp at hm
      omega
  simp only [encodeMultiString, decodeMultiString]
  rw [v8_to_v16_v16_to_v8 _ hb, splitSegsAux_encode l h]
  rw [if_pos (by simp)]
  simp [decodeSegs_map_encode l]

/-- Codec round trip for raw byte sequences. -/
theorem decodeBytes_encodeBytes (b : List Nat) :
    decodeBytes (encodeBytes b) = .ok b := by
  simp [encodeBytes, decodeBytes]

/-- C1, counterexample: for a stored value of 3000 bytes the single
query with the fixed 2048-byte buffer fails and get_raw_value returns
the buffer-too-small signal ERROR_MORE_DATA straight to the caller —
there is no growth and no retry, refuting the claim that a
buffer-too-small signal is never returned to the final caller. -/
theorem C1_counterexample :
    get_raw_value (queryValue ⟨1, List.replicate 3000 0⟩) = .err ⟨ERROR_MORE_DATA⟩ := by
  rw [get_raw_value, queryValue, if_neg (by rw [List.length_replicate]; norm_num)]

/-- C1, amended: every value read calls the store exactly once with a
fixed 2048-byte buffer; on success the buffer is cut to the reported
used length and returned; ANY failure signal — the buffer-too-small
signal ERROR_MORE_DATA included — is surfaced to the caller as a mapped
error, both by get_raw_value and by a value-iterator step. -/
theorem C1_fixed_buffer_no_retry (v : StoredValue) (store : Nat → EnumValueReply)
    (it : EnumValues) :
    (2048 < v.data.length → get_raw_value (queryValue v) = .err ⟨ERROR_MORE_DATA⟩) ∧
    (v.data.length ≤ 2048 → v.vtype ≤ 11 →
      get_raw_value (queryValue v) = .ok ⟨v.data, RegType.fromTag v.vtype⟩) ∧
    (store it.index = .err ERROR_MORE_DATA →
      enumValuesNext store it = (.yields (some (.err ⟨ERROR_MORE_DATA⟩)), it)) := by
  refine ⟨fun hlen => ?_, fun hlen htag => ?_, fun hs => ?_⟩
  · rw [get_raw_value, queryValue, if_neg (by omega)]
  · rw [get_raw_value, queryValue, if_pos hlen]
    simp only []
    rw [if_neg (by omega)]
  · rw [enumValuesNext, hs]
    simp only []
    rw [if_neg (by simp [ERROR_MORE_DATA, ERROR_NO_MORE_ITEMS])]

/-- C1, witness for the amended statement at concrete inputs: a fitting
value is returned trimmed, an oversized one surfaces ERROR_MORE_DATA,
and an iterator step passes ERROR_MORE_DATA through. -/
theorem C1_witness :
    get_raw_value (queryValue ⟨3, [7, 7]⟩) = .ok ⟨[7, 7], RegType.fromTag 3⟩ ∧
    get_raw_value (queryValue ⟨1, List.replicate 4000 1⟩) = .err ⟨ERROR_MORE_DATA⟩ ∧
    enumValuesNext (fun _ => .err ERROR_MORE_DATA) ⟨0⟩ =
      (.yields (some (.err ⟨ERROR_MORE_DATA⟩)), ⟨0⟩) :=
  ⟨(C1_fixed_buffer_no_retry ⟨3, [7, 7]⟩ (fun _ => .err ERROR_MORE_DATA) ⟨0⟩).2.1
      (by simp) (by norm_num),
   (C1_fixed_buffer_no_retry ⟨1, List.replicate 4000 1⟩ (fun _ => .err ERROR_MORE_DATA) ⟨0⟩).1
      (by rw [List.length_replicate]; norm_num),
   (C1_fixed_buffer_no_retry ⟨1, []⟩ (fun _ => .err ERROR_MORE_DATA) ⟨0⟩).2.2 rfl⟩

/-- C2, counterexample: a create reporting disposition 1
(REG_CREATED_NEW_KEY, first create on a fresh path) and one reporting
disposition 2 (REG_OPENED_EXISTING_KEY, second create on the same path)
give literally identical caller-visible results, which carry a key
handle and nothing else — no disposition is reported to the caller,
refuting the claim that exactly one disposition is reported per call. -/
theorem C2_counterexample :
    create_subkey_with_flags (.ok 42 1) = create_subkey_with_flags (.ok 42 2) ∧
    create_subkey_with_flags (.ok 42 1) = .ok ⟨42⟩ :=
  ⟨rfl, rfl⟩

/-- C2, amended: the create call receives a disposition from the store
through the out-parameter but discards it (the source marks it TODO);
the caller receives only the opened key, and the result is the same
whatever disposition the store reports. -/
theorem C2_disposition_discarded (h d d' : Nat) :
    create_subkey_with_flags (.ok h d) = create_subkey_with_flags (.ok h d') ∧
    create_subkey_with_flags (.ok h d) = .ok ⟨h⟩ :=
  ⟨rfl, rfl⟩

/-- C3, counterexample: a string sequence whose single element is the
one-character string NUL does not round-trip through the codec — its
encoding is indistinguishable from that of two empty strings, and
decode returns those two empty strings — refuting the claim for every
value of every supported type. -/
theorem C3_counterexample :
    decodeMultiString (encodeMultiString [[Char.ofNat 0]]) = .ok [[], []] ∧
    ([[], []] : List (List Char)) ≠ [[Char.ofNat 0]] := by
  refine ⟨rfl, by decide⟩

/-- C3, amended: decode of encode is the identity for every supported
type and value — strings of any content including non-BMP scalars,
32-bit and 64-bit integers within their width, raw byte sequences, and
string sequences whose elements contain no NUL character (a NUL inside
an element collides with the format's segment terminator). The codec of
the missing module types.rs is modelled from the specification. -/
theorem C3_roundtrip (s : List Char) (n32 n64 : Nat) (l : List (List Char)) (b : List Nat)
    (h32 : n32 < 2 ^ 32) (h64 : n64 < 2 ^ 64)
    (hl : ∀ e ∈ l, ∀ c ∈ e, c.toNat ≠ 0) :
    decodeString (encodeString s) = .ok s ∧
    decodeU32 (encodeU32 n32) = .ok n32 ∧
    decodeU64 (encodeU64 n64) = .ok n64 ∧
    decodeMultiString (encodeMultiString l) = .ok l ∧
    decodeBytes (encodeBytes b) = .ok b :=
  ⟨decodeString_encodeString s, decodeU32_encodeU32 n32 h32, decodeU64_encodeU64 n64 h64,
   decodeMultiString_encodeMultiString l hl, decodeBytes_encodeBytes b⟩

/-- C3, witness at the representative values the claim names: a non-BMP
scalar (U+1F600) alone and inside a sequence, the empty string, the
empty sequence, zero and the maximal 32-bit and 64-bit integers, and a
byte blob. -/
theorem C3_witness :
    decodeString (encodeString [Char.ofNat 0x1F600]) = .ok [Char.ofNat 0x1F600] ∧
    decodeString (encodeString []) = .ok [] ∧
    decodeU32 (encodeU32 0) = .ok 0 ∧
    decodeU32 (encodeU32 (2 ^ 32 - 1)) = .ok (2 ^ 32 - 1) ∧
    decodeU64 (encodeU64 (2 ^ 64 - 1)) = .ok (2 ^ 64 - 1) ∧
    decodeMultiString (encodeMultiString []) = .ok [] ∧
    decodeMultiString (encodeMultiString [[Char.ofNat 0x1F600], []]) =
      .ok [[Char.ofNat 0x1F600], []] ∧
    decodeBytes (encodeBytes [0, 255]) = .ok [0, 255] :=
  ⟨(C3_roundtrip [Char.ofNat 0x1F600] 0 0 [] [] (by norm_num) (by norm_num) (by simp)).1,
   (C3_roundtrip [] 0 0 [] [] (by norm_num) (by norm_num) (by simp)).1,
   (C3_roundtrip [] 0 0 [] [] (by norm_num) (by norm_num) (by simp)).2.1,
   (C3_roundtrip [] (2 ^ 32 - 1) 0 [] [] (by norm_num) (by norm_num) (by simp)).2.1,
   (C3_roundtrip [] 0 (2 ^ 64 - 1) [] [] (by norm_num) (by norm_num) (by simp)).2.2.1,
   (C3_roundtrip [] 0 0 [] [] (by norm_num) (by norm_num) (by simp)).2.2.2.1,
   (C3_roundtrip [] 0 0 [[Char.ofNat 0x1F600], []] [] (by norm_num) (by norm_num)
      (by decide)).2.2.2.1,
   (C3_roundtrip [] 0 0 [] [0, 255] (by norm_num) (by norm_num) (by simp)).2.2.2.2⟩

/-- C4, counterexample: with a store failing every index with code 5
(access denied), the first step yields the error and leaves the index
at 0, and the next step yields the very same error for the very same
index again — the error surfaces more than once and the failed index is
retried, refuting the claim that the sequence is exhausted after one
surfaced error. -/
theorem C4_counterexample :
    enumKeysNext (fun _ => .err 5) ((enumKeysNext (fun _ => .err 5) ⟨0⟩).2) =
      (some (.err ⟨5⟩), ⟨0⟩) := rfl

/-- C4, amended: for the key-name iterator a no-more-items signal ends
the sequence normally, and any other store signal is surfaced as an
error with the position left unchanged, so the next step retries the
same failed index (the error can surface repeatedly; the sequence is
not exhausted by it). -/
theorem C4_error_not_advancing (store : Nat → EnumKeyReply) (it : EnumKeys) :
    (store it.index = .err ERROR_NO_MORE_ITEMS → enumKeysNext store it = (none, it)) ∧
    (∀ code, store it.index = .err code → code ≠ ERROR_NO_MORE_ITEMS →
      enumKeysNext store it = (some (.err ⟨code⟩), it) ∧
      enumKeysNext store (enumKeysNext store it).2 = (some (.err ⟨code⟩), it)) := by
  refine ⟨fun hs => ?_, fun code hs hne => ?_⟩
  · rw [enumKeysNext, hs]
    simp
  · have h1 : enumKeysNext store it = (some (.err ⟨code⟩), it) := by
      rw [enumKeysNext, hs]
      simp [hne]
    exact ⟨h1, by rw [h1, h1]⟩

/-- C4, witness: the no-more-items signal ends the sequence with no
error, and a step failing with code 8 yields the error while keeping
the index at 4. -/
theorem C4_witness :
    enumKeysNext (fun _ => .err ERROR_NO_MORE_ITEMS) ⟨0⟩ = (none, ⟨0⟩) ∧
    enumKeysNext (fun _ => .err 8) ⟨4⟩ = (some (.err ⟨8⟩), ⟨4⟩) :=
  ⟨(C4_error_not_advancing (fun _ => .err ERROR_NO_MORE_ITEMS) ⟨0⟩).1 rfl,
   ((C4_error_not_advancing (fun _ => .err 8) ⟨4⟩).2 8 rfl (by decide)).1⟩

/-- C5, counterexample: for a store-allocated handle (100, below the
predefined range) whose close fails with code 6, the Drop
implementation, which unwraps the result of close_, panics — the
failure is not swallowed and the program aborts, refuting the claim that
implicit release never propagates an error. -/
theorem C5_counterexample :
    drop (fun _ => 6) ⟨100⟩ = .panics := rfl

/-- C5, amended: when the underlying close of a store-allocated handle
fails at destruction time, the failure is not swallowed: Drop asserts
success via unwrap and panics; the close operation that surfaces the
failure as an error result is the private close_ (the crate offers no
public explicit close). -/
theorem C5_drop_panics (closeKey : Nat → Nat) (k : RegKey)
    (hk : k.hkey < HKEY_CLASSES_ROOT) (hf : closeKey k.hkey ≠ 0) :
    drop closeKey k = .panics ∧ close_ closeKey k = .err ⟨closeKey k.hkey⟩ := by
  have hc : close_ closeKey k = .err ⟨closeKey k.hkey⟩ := by
    rw [close_, if_neg (by omega)]
    rcases hn : closeKey k.hkey with _ | m
    · exact absurd hn hf
    · rfl
  exact ⟨by rw [drop, hc], hc⟩

/-- C5, witness: handle 100 with a store close failing with code 6 —
the drop panics and the private close_ surfaces the error. -/
theorem C5_witness :
    drop (fun _ => 6) ⟨100⟩ = .panics ∧ close_ (fun _ => 6) ⟨100⟩ = .err ⟨6⟩ :=
  C5_drop_panics (fun _ => 6) ⟨100⟩ (by norm_num [HKEY_CLASSES_ROOT]) (by norm_num)

/-- C6, counterexample: a stored value with type tag 12 — one past
REG_QWORD, exactly the kind of future tag the claim says the raw path
accepts — is rejected by get_raw_value with ERROR_BAD_FILE_TYPE instead
of being returned verbatim, refuting the claim that no tag is
rejected. -/
theorem C6_counterexample :
    get_raw_value (queryValue ⟨12, [1, 2, 3]⟩) = .err ⟨ERROR_BAD_FILE_TYPE⟩ := rfl

/-- C6, amended: for every stored value whose type tag does not exceed
REG_QWORD (11) — including the tags the typed codec does not decode,
such as REG_NONE, REG_DWORD_BIG_ENDIAN or the resource-descriptor tags —
get_raw_value returns the tag and the byte blob verbatim without
decoding; a tag above 11, however, is rejected with
ERROR_BAD_FILE_TYPE. -/
theorem C6_raw_value_verbatim (t : Nat) (data : List Nat)
    (ht : t ≤ 11) (hd : data.length ≤ 2048) :
    get_raw_value (queryValue ⟨t, data⟩) = .ok ⟨data, RegType.fromTag t⟩ ∧
    (∀ u, 11 < u → get_raw_value (queryValue ⟨u, data⟩) = .err ⟨ERROR_BAD_FILE_TYPE⟩) := by
  constructor
  · rw [get_raw_value, queryValue, if_pos hd]
    simp only []
    rw [if_neg (by omega)]
  · intro u hu
    rw [get_raw_value, queryValue, if_pos hd]
    simp only []
    rw [if_pos hu]

/-- C6, witness: a REG_NONE-tagged blob (tag 0, undecodable by the
typed codec) is returned verbatim, and the same blob under tag 12 is
rejected. -/
theorem C6_witness :
    get_raw_value (queryValue ⟨0, [9, 9, 9]⟩) = .ok ⟨[9, 9, 9], RegType.fromTag 0⟩ ∧
    get_raw_value (queryValue ⟨13, [9, 9, 9]⟩) = .err ⟨ERROR_BAD_FILE_TYPE⟩ :=
  ⟨(C6_raw_value_verbatim 0 [9, 9, 9] (by norm_num) (by simp)).1,
   (C6_raw_value_verbatim 0 [9, 9, 9] (by norm_num) (by simp)).2 13 (by norm_num)⟩

/-- C7, counterexample: against a store in which deleting with the
bare-terminator name succeeds (exactly the self-delete the source's own
documentation describes for an empty path), delete_subkey with the
empty path succeeds — no validity check rejects it — refuting the claim
that an empty path always fails. -/
theorem C7_counterexample :
    delete_subkey (fun units => if units = [0] then 0 else 2) [] = .ok () := rfl

/-- C7, amended: delete_subkey performs no empty-path check: the empty
path is encoded to the single NUL terminator and handed to the store,
whose status is returned unchanged — per the function's documentation
an empty path deletes the key itself whenever the store permits it. -/
theorem C7_empty_path_forwarded (deleteKey : List Nat → Nat) :
    to_utf16 [] = [0] ∧
    (deleteKey [0] = 0 → delete_subkey deleteKey [] = .ok ()) ∧
    (∀ code, deleteKey [0] = code → code ≠ 0 → delete_subkey deleteKey [] = .err ⟨code⟩) := by
  refine ⟨rfl, fun hz => ?_, fun code hc hne => ?_⟩
  · rw [delete_subkey]
    rw [show to_utf16 [] = [0] from rfl, hz]
  · rw [delete_subkey, show to_utf16 [] = [0] from rfl, hc]
    rcases code with _ | m
    · exact absurd rfl hne
    · rfl

/-- C7, witness: the empty path succeeds against a store granting the
self-delete and surfaces the store's code 2 against one refusing it. -/
theorem C7_witness :
    delete_subkey (fun _ => 0) [] = .ok () ∧
    delete_subkey (fun _ => 2) [] = .err ⟨2⟩ :=
  ⟨(C7_empty_path_forwarded (fun _ => 0)).2.1 rfl,
   (C7_empty_path_forwarded (fun _ => 2)).2.2 2 rfl (by norm_num)⟩

/-- C8, counterexample: a store whose first entry has the name 0xD800 —
a lone surrogate, not valid UTF-16 — makes the value iterator panic on
that step (the unwrap in the source) rather than report a step error,
refuting the claim that a malformed name never panics the sequence. -/
theorem C8_counterexample :
    enumValuesNext (fun _ => .ok [0xD800] 1 []) ⟨0⟩ = (.panics, ⟨1⟩) := rfl

/-- C8, amended: for the value iterator, an unsupported type tag (above
REG_QWORD) is reported as an error result for that step only, with the
index already advanced, so the caller can request the next step and
enumeration continues past the bad entry; a malformed (invalid UTF-16)
name, however, panics the whole sequence instead of yielding a step
error. -/
theorem C8_step_error_vs_panic (store : Nat → EnumValueReply) (it : EnumValues)
    (name : List Nat) (vtype : Nat) (data : List Nat)
    (hs : store it.index = .ok name vtype data) :
    (∀ nm, decodeUtf16 name = some nm → 11 < vtype →
      enumValuesNext store it = (.yields (some (.err ⟨ERROR_BAD_FILE_TYPE⟩)), ⟨it.index + 1⟩)) ∧
    (decodeUtf16 name = none → enumValuesNext store it = (.panics, ⟨it.index + 1⟩)) := by
  constructor
  · intro nm hnm htag
    rw [enumValuesNext, hs]
    simp only [hnm]
    rw [if_pos htag]
  · intro hnm
    rw [enumValuesNext, hs]
    simp only [hnm]

/-- C8, witness: entry 0 carries an unsupported tag 99 and a well-formed
name, so step 0 yields the step error and advances to index 1, where a
well-formed entry is decoded and yielded — enumeration continued past
the bad entry; a lone-surrogate name instead panics. -/
theorem C8_witness :
    enumValuesNext (fun i => if i = 0 then .ok [97] 99 [1] else .ok [98] 1 [2]) ⟨0⟩ =
      (.yields (some (.err ⟨ERROR_BAD_FILE_TYPE⟩)), ⟨1⟩) ∧
    enumValuesNext (fun i => if i = 0 then .ok [97] 99 [1] else .ok [98] 1 [2]) ⟨1⟩ =
      (.yields (some (.ok ([Char.ofNat 98], ⟨[2], RegType.fromTag 1⟩))), ⟨2⟩) ∧
    enumValuesNext (fun _ => .ok [0xD800] 1 []) ⟨3⟩ = (.panics, ⟨4⟩) :=
  ⟨(C8_step_error_vs_panic (fun i => if i = 0 then .ok [97] 99 [1] else .ok [98] 1 [2])
      ⟨0⟩ [97] 99 [1] rfl).1 [Char.ofNat 97] (by decide) (by norm_num),
   rfl,
   (C8_step_error_vs_panic (fun _ => .ok [0xD800] 1 []) ⟨3⟩ [0xD800] 1 [] rfl).2 (by decide)⟩

/-- C9: a key whose handle is one of the ten well-known predefined
roots is never closed against the store — close_ succeeds without the
result depending on the store's close function in any way — and
destruction runs close_ and finds Ok, so it returns normally; since
close_ mutates nothing, a repeated close is the very same succeeding
no-op, so closing is idempotent. -/
theorem C9_predefined_never_closed (h : Nat) (hp : h ∈ predefinedRoots) :
    (∀ closeKey : Nat → Nat, close_ closeKey ⟨h⟩ = .ok ()) ∧
    (∀ f g : Nat → Nat, close_ f ⟨h⟩ = close_ g ⟨h⟩) ∧
    (∀ closeKey : Nat → Nat, drop closeKey ⟨h⟩ = .unit) := by
  have hge : HKEY_CLASSES_ROOT ≤ h := by
    simp [predefinedRoots] at hp
    rw [HKEY_CLASSES_ROOT]
    omega
  have hok : ∀ closeKey : Nat → Nat, close_ closeKey ⟨h⟩ = .ok () := by
    intro closeKey
    rw [close_, if_pos hge]
  exact ⟨hok, fun f g => by rw [hok f, hok g],
    fun closeKey => by rw [drop, hok closeKey]⟩

/-- C9, witness: HKEY_CURRENT_USER (0x80000001) is closed successfully
and dropped without panic even against a store whose close call would
fail with code 1 — the store is never consulted. -/
theorem C9_witness :
    close_ (fun _ => 1) ⟨0x80000001⟩ = .ok () ∧
    drop (fun _ => 1) ⟨0x80000001⟩ = .unit :=
  ⟨(C9_predefined_never_closed 0x80000001 (by decide)).1 (fun _ => 1),
   (C9_predefined_never_closed 0x80000001 (by decide)).2.2 (fun _ => 1)⟩

/-- C10: the buffer handed across the store boundary for any path or
value name is exactly the UTF-16 encoding of the input followed by one
appended NUL code unit, and no interior-NUL check is made: when the
input contains a NUL character, a NUL-terminated wide-string consumer
reads only the encoding of the part before that NUL — the store sees
the input truncated there. -/
theorem C10_wide_encoding (s s1 s2 : List Char) (h1 : ∀ c ∈ s1, c.toNat ≠ 0) :
    to_utf16 s = encodeUtf16 s ++ [0] ∧
    readWideCStr (to_utf16 (s1 ++ Char.ofNat 0 :: s2)) = encodeUtf16 s1 := by
  refine ⟨rfl, ?_⟩
  have henc : to_utf16 (s1 ++ Char.ofNat 0 :: s2)
      = encodeUtf16 s1 ++ 0 :: (encodeUtf16 s2 ++ [0]) := by
    rw [to_utf16]
    have : encodeUtf16 (s1 ++ Char.ofNat 0 :: s2)
        = encodeUtf16 s1 ++ encodeCharUtf16 (Char.ofNat 0) ++ encodeUtf16 s2 := by
      simp [encodeUtf16]
    rw [this, show encodeCharUtf16 (Char.ofNat 0) = [0] from rfl]
    simp
  rw [henc, readWideCStr_append _ _ (mem_encodeUtf16_ne_zero s1 h1)]

/-- C10, witness: the name "a", then "a" NUL "b" — the buffer for "a" is
code unit 97 plus the terminator, and the store-visible part of the
embedded-NUL name is just the encoding of "a". -/
theorem C10_witness :
    to_utf16 [Char.ofNat 97] = encodeUtf16 [Char.ofNat 97] ++ [0] ∧
    readWideCStr (to_utf16 ([Char.ofNat 97] ++ Char.ofNat 0 :: [Char.ofNat 98])) =
      encodeUtf16 [Char.ofNat 97] :=
  ⟨(C10_wide_encoding [Char.ofNat 97] [Char.ofNat 97] [Char.ofNat 98] (by decide)).1,
   (C10_wide_encoding [Char.ofNat 97] [Char.ofNat 97] [Char.ofNat 98] (by decide)).2⟩

end Winreg
